import Mathlib

/-!
A verification development for a small stock-market analysis tool.

The tool has four parts, embedded here shallowly:

* an indicator engine (`calculate_indicators`): from a series of daily
  price bars it derives moving averages, Bollinger bands, ATR, ADX, RSI,
  MACD (+ signal) and OBV columns;
* a scorer (`compute_score`): from the tail of the indicator series and a
  fundamentals mapping it produces a single clipped score;
* a fundamentals adapter (`fetch_fundamentals`): it restricts a raw
  fundamentals mapping to four canonical ratios converted to floats;
* a batch driver (`batchResults`): it scores a list of tickers and keeps
  one output row per ticker whose analyses succeed.

Modelling conventions.  Floats are modelled as rationals; a float cell
that can be NaN is an `Option ℚ` with `none` for NaN.  Where the float
code can produce infinities or NaN from a division by zero, the IEEE
special cases are written out explicitly (`rsiCell`, `dxCell`, `smaTerm`,
`atrContrib`); the scorer's accumulator therefore lives in the extended
type `XQ`.  The Bollinger columns involve a square root, so those two
columns live in `ℝ`.  pandas conventions that the code relies on are
reproduced: `rolling(W)` statistics are undefined until `W` observations
exist, `rolling(W).std()` uses the sample divisor `W - 1`, exponential
means use `alpha = 2 / (span + 1)` with `adjust=False` seeding from the
first observation, and `.diff()`'s leading NaN is neutralised by the
`where(…, 0)` / `fillna(0)` masks the code applies to every difference
series.
-/

/-- An IEEE-style extended rational: the value of a float expression in
the scorer, where division by a zero moving average can produce an
infinity or a quiet NaN. -/
inductive XQ where
  | fin (q : ℚ)
  | pinf
  | ninf
  | nan
  deriving DecidableEq

/-- IEEE addition on extended rationals (opposite infinities and NaN
give NaN). -/
def xadd : XQ → XQ → XQ
  | .nan, _ => .nan
  | _, .nan => .nan
  | .pinf, .ninf => .nan
  | .ninf, .pinf => .nan
  | .pinf, _ => .pinf
  | _, .pinf => .pinf
  | .ninf, _ => .ninf
  | _, .ninf => .ninf
  | .fin a, .fin b => .fin (a + b)

/-- `np.clip(x, 0, 100)` on floats: `min(max(x, 0), 100)`, sending `+inf`
to `100`, `-inf` to `0`, and NaN to NaN. -/
def xclip : XQ → XQ
  | .nan => .nan
  | .pinf => .fin 100
  | .ninf => .fin 0
  | .fin q => .fin (min (max q 0) 100)

/-- The single failure of the scorer: reading the last row of an empty
frame (the `InsufficientDataError` of the specification; in the code it
surfaces as the `IndexError` of `df["Close"].iat[-1]`). -/
inductive ScoreError where
  | insufficientData
  deriving DecidableEq

/-- One row of the indicator series, restricted to the columns the scorer
reads.  A cell that can be NaN is an `Option ℚ`. -/
structure IndRow where
  close : ℚ
  smaShort : Option ℚ
  smaLong : Option ℚ
  bbUpper : Option ℚ
  bbLower : Option ℚ
  atr : Option ℚ
  adx : Option ℚ
  rsi : Option ℚ
  macd : Option ℚ
  macdSignal : Option ℚ
  obv : Option ℚ
  deriving DecidableEq

/-- pandas `Series.tail(n)`: the last `n` elements. -/
def tailN {α : Type*} (xs : List α) (n : ℕ) : List α := xs.drop (xs.length - n)

/-- pandas `Series.mean()` of a series without missing values. -/
def listMean (xs : List ℚ) : ℚ := xs.sum / xs.length

/-- The window of (up to) `W` observations ending at position `i`. -/
def windowSlice (xs : List ℚ) (W i : ℕ) : List ℚ := (xs.drop (i + 1 - W)).take W

/-- pandas `rolling(window=W).mean()` at position `i` of a series without
missing values: undefined until the window holds `W` observations (and a
zero-width window never yields a defined mean). -/
def rollMeanCell (xs : List ℚ) (W i : ℕ) : Option ℚ :=
  if 1 ≤ W ∧ W ≤ i + 1 then some (listMean (windowSlice xs W i)) else none

/-- The whole rolling-mean column of a series. -/
def rollMeanCol (xs : List ℚ) (W : ℕ) : List (Option ℚ) :=
  (List.range xs.length).map (rollMeanCell xs W)

/-- RSI branch of the scorer: mean of the defined RSI values among the
last `lb` rows, worth up to 15 points, skipped when none are defined. -/
def rsiContrib (rsis : List (Option ℚ)) (lb : ℕ) : ℚ :=
  let t := (tailN rsis lb).filterMap id
  if t.isEmpty then 0 else 15 * (1 - |listMean t - 50| / 50)

/-- `(df["MACD"] - df["MACD_signal"]).dropna()`: the MACD histogram with
its undefined rows removed. -/
def histList (df : List IndRow) : List ℚ :=
  df.filterMap fun r =>
    match r.macd, r.macdSignal with
    | some a, some b => some (a - b)
    | _, _ => none

/-- MACD-histogram branch of the scorer: latest histogram value over the
rolling mean of its absolute values, scaled by 20.  The inner `none`
branch is unreachable once `1 ≤ lb` (for `lb = 0` with an empty histogram
the Python would fail on `hist.iloc[-1]` instead). -/
def macdContrib (df : List IndRow) (lb : ℕ) : ℚ :=
  let hist := histList df
  if lb ≤ hist.length then
    match hist.getLast? with
    | some histLatest =>
      match ((rollMeanCol (hist.map fun q => |q|) lb).filterMap id).getLast? with
      | some avgHist => if avgHist = 0 then 0 else 20 * (histLatest / avgHist)
      | none => 0
    | none => 0
  else 0

/-- Bollinger branch of the scorer: reward proximity to the lower band,
guarded by `BB_upper > BB_lower` with both defined. -/
def bbContrib (bu bl : Option ℚ) (c : ℚ) : ℚ :=
  match bu, bl with
  | some u, some l =>
    if l < u then 10 * (1 - min (max ((c - l) / (u - l)) 0) 1) else 0
  | _, _ => 0

/-- One SMA position term `5 * (close / sma - 1)` of the scorer, as the
float value it takes: with `sma = 0` the quotient is `±inf` (NaN for
`close = 0`), which survives the subtraction and the positive scaling. -/
def smaTerm (c : ℚ) : Option ℚ → XQ
  | none => .fin 0
  | some s =>
    if s = 0 then (if 0 < c then .pinf else if c < 0 then .ninf else .nan)
    else .fin (5 * (c / s - 1))

/-- SMA branch of the scorer: the two position terms plus the tie-break
term `5 if sma_s > sma_l else -5` when both averages are defined. -/
def smaContribX (s? l? : Option ℚ) (c : ℚ) : XQ :=
  xadd (xadd (smaTerm c s?) (smaTerm c l?))
    (match s?, l? with
     | some s, some l => .fin (if l < s then 5 else -5)
     | _, _ => .fin 0)

/-- ATR branch of the scorer.  For a latest close of `0` the float code
computes `ratio = atr / 0 = +inf`, so `raw = -inf` and the clamp sends the
contribution to `0`; that case is written out explicitly. -/
def atrContrib (a? : Option ℚ) (c : ℚ) : ℚ :=
  match a? with
  | none => 0
  | some a =>
    if 0 < a then
      if c = 0 then 0
      else 5 * max 0 (min 1 ((4 / 100 - a / c) / (2 / 100)))
    else 0

/-- ADX branch of the scorer: `(min(adx, 50) / 50) * 5` when defined. -/
def adxContrib (x? : Option ℚ) : ℚ :=
  match x? with
  | some x => min x 50 / 50 * 5
  | none => 0

/-- OBV branch of the scorer: `+5` when at least two rows exist and the
latest OBV strictly exceeds the previous one (a NaN comparison is false,
so an undefined OBV adds nothing). -/
def obvContrib (df : List IndRow) : ℚ :=
  match df.reverse with
  | r1 :: r2 :: _ =>
    match r1.obv, r2.obv with
    | some a, some b => if b < a then 5 else 0
    | _, _ => 0
  | _ => 0

/-- `np.interp x xp fp` for increasing breakpoints: clamped at both ends,
linear in between. -/
def interp (x : ℚ) : List (ℚ × ℚ) → ℚ
  | [] => 0
  | [(_, y)] => y
  | (x1, y1) :: (x2, y2) :: rest =>
    if x ≤ x1 then y1
    else if x ≤ x2 then y1 + (y2 - y1) * (x - x1) / (x2 - x1)
    else interp x ((x2, y2) :: rest)

/-- Fundamentals branch of the scorer: piecewise-linear points for each
present ratio, summed and scaled by `decay = min(lb / 20, 1)`. -/
def fundContrib (fund : List (String × ℚ)) (lb : ℕ) : ℚ :=
  let fs :=
    (match fund.lookup "trailingPE" with
     | some pe => interp pe [(5, 10), (15, 10), (25, 5), (50, 0)]
     | none => 0)
    + (match fund.lookup "earningsQuarterlyGrowth" with
       | some eg => interp eg [(0, 0), (1 / 10, 5), (2 / 10, 15), (1, 15)]
       | none => 0)
    + (match fund.lookup "debtToEquity" with
       | some de => interp de [(0, 5), (50, 5), (100, 5 / 2), (300, 0)]
       | none => 0)
    + (match fund.lookup "revenueQuarterlyGrowth" with
       | some rg => interp rg [(0, 0), (1 / 10, 10), (5 / 10, 10)]
       | none => 0)
  fs * min ((lb : ℚ) / 20) 1

/-- The value `compute_score` returns for a frame whose last row is
`last`: the sum of the seven rational contributions combined with the SMA
branch (the one branch whose float value can be non-finite), clipped to
`[0, 100]`. -/
def scoreVal (df : List IndRow) (fund : List (String × ℚ)) (lb : ℕ) (last : IndRow) : XQ :=
  let base := rsiContrib (df.map IndRow.rsi) lb
    + macdContrib df lb
    + bbContrib last.bbUpper last.bbLower last.close
    + atrContrib last.atr last.close
    + adxContrib last.adx
    + obvContrib df
    + fundContrib fund lb
  xclip (xadd (.fin base) (smaContribX last.smaShort last.smaLong last.close))

/-- `compute_score(df, fundamentals, lookback_days)`.  On an empty frame
the code fails at `df["Close"].iat[-1]`; otherwise every branch adds its
contribution and the sum is clipped to `[0, 100]`. -/
def compute_score (df : List IndRow) (fund : List (String × ℚ)) (lookback_days : ℕ) :
    Except ScoreError XQ :=
  match df.getLast? with
  | none => .error .insufficientData
  | some last => .ok (scoreVal df fund lookback_days last)

/-- One daily price bar (`Open/High/Low/Close/Volume`). -/
structure Bar where
  open_ : ℚ
  high : ℚ
  low : ℚ
  close : ℚ
  volume : ℚ
  deriving DecidableEq

/-- The indicator parameter set of `calculate_indicators`. -/
structure Params where
  sma_short : ℕ
  sma_long : ℕ
  bb_window : ℕ
  rsi_window : ℕ
  macd_fast : ℕ
  macd_slow : ℕ
  macd_signal : ℕ
  deriving DecidableEq

/-- `Close.diff()` with the leading NaN taken as `0`: every use in the
code (`where(delta > 0, 0)`, `where(delta < 0, 0)`,
`np.sign(delta.fillna(0))`) sends that NaN to `0`. -/
def diffs0 : List ℚ → List ℚ
  | [] => []
  | x :: xs => 0 :: List.zipWith (fun b a => b - a) xs (x :: xs)

/-- `delta.where(delta > 0, 0)`: the positive close deltas. -/
def gainList (closes : List ℚ) : List ℚ := (diffs0 closes).map fun d => max d 0

/-- `-delta.where(delta < 0, 0)`: the magnitudes of the negative close
deltas. -/
def lossList (closes : List ℚ) : List ℚ := (diffs0 closes).map fun d => max (-d) 0

/-- `RSI = 100 - 100 / (1 + gain / loss)` on floats, for the nonnegative
rolling means `gain` and `loss`: with `loss = 0` the quotient is `+inf`
when `gain > 0` (so the RSI is `100`) and NaN when `gain = 0` (so the RSI
is undefined); either rolling mean being undefined makes the RSI
undefined. -/
def rsiCell : Option ℚ → Option ℚ → Option ℚ
  | some g, some l =>
    if l = 0 then (if g = 0 then none else some 100)
    else some (100 - 100 / (1 + g / l))
  | _, _ => none

/-- The RSI column cell at position `i`. -/
def rsiCellAt (closes : List ℚ) (W i : ℕ) : Option ℚ :=
  rsiCell (rollMeanCell (gainList closes) W i) (rollMeanCell (lossList closes) W i)

/-- Recursion for `ewm(span, adjust=False).mean()` over a series without
missing values. -/
def ewmGo (alpha a : ℚ) : List ℚ → List ℚ
  | [] => [a]
  | y :: ys => a :: ewmGo alpha ((1 - alpha) * a + alpha * y) ys

/-- `Series.ewm(span, adjust=False).mean()` over a series without missing
values: seeded with the first observation, then
`e[t] = (1 - alpha) * e[t-1] + alpha * x[t]`. -/
def ewm (alpha : ℚ) : List ℚ → List ℚ
  | [] => []
  | x :: xs => ewmGo alpha x xs

/-- `alpha = 2 / (span + 1)`. -/
def alphaOfSpan (span : ℕ) : ℚ := 2 / ((span : ℚ) + 1)

/-- Recursion for the pandas exponential mean over a series with missing
values (`adjust=False`, `ignore_na=False`): a missing observation leaves
the carried mean in place but decays the accumulated weight `w`; an
observation `v` updates the mean to `(w1 * a + alpha * v) / (w1 + alpha)`
for the decayed weight `w1` and resets the weight to `1`. -/
def ewmNaGo (alpha a w : ℚ) : List (Option ℚ) → List (Option ℚ)
  | [] => []
  | none :: xs => some a :: ewmNaGo alpha a (w * (1 - alpha)) xs
  | some v :: xs =>
    some ((w * (1 - alpha) * a + alpha * v) / (w * (1 - alpha) + alpha)) ::
      ewmNaGo alpha ((w * (1 - alpha) * a + alpha * v) / (w * (1 - alpha) + alpha)) 1 xs

/-- pandas `ewm(span, adjust=False).mean()` over a series with missing
values: NaN until the first observation, which seeds the mean. -/
def ewmNa (alpha : ℚ) : List (Option ℚ) → List (Option ℚ)
  | [] => []
  | none :: xs => none :: ewmNa alpha xs
  | some v :: xs => some v :: ewmNaGo alpha v 1 xs

/-- The true-range series: at position `0` the skipna row-maximum of
`(high - low, NaN, NaN)` is `high - low`; afterwards the maximum of
`high - low`, `|high - prevClose|` and `|low - prevClose|`. -/
def trList : List Bar → List ℚ
  | [] => []
  | b :: bs =>
    (b.high - b.low) ::
      List.zipWith (fun cur prev =>
        max (cur.high - cur.low) (max |cur.high - prev.close| |cur.low - prev.close|))
        bs (b :: bs)

/-- `high_diff.where((high_diff > low_diff) & (high_diff > 0), 0.0)`, with
the leading NaN diff giving `0`. -/
def plusDmList : List Bar → List ℚ
  | [] => []
  | b :: bs =>
    0 :: List.zipWith (fun cur prev =>
      if cur.low - prev.low < cur.high - prev.high ∧ 0 < cur.high - prev.high then
        cur.high - prev.high
      else 0) bs (b :: bs)

/-- `low_diff.where((low_diff > high_diff) & (low_diff > 0), 0.0)`, with
the leading NaN diff giving `0`. -/
def minusDmList : List Bar → List ℚ
  | [] => []
  | b :: bs =>
    0 :: List.zipWith (fun cur prev =>
      if cur.high - prev.high < cur.low - prev.low ∧ 0 < cur.low - prev.low then
        cur.low - prev.low
      else 0) bs (b :: bs)

/-- The `DX` cell at position `i`.  It is NaN while the ATR is undefined;
when the ATR is `0` the directional-indicator quotients are `±inf` or NaN
and `100 * |+DI - -DI| / (+DI + -DI)` is NaN in every such case; and since
the smoothed directional movements are nonnegative, `+DI + -DI = 0` with a
nonzero ATR happens only as a float `0 / 0`, again NaN. -/
def dxCell (bars : List Bar) (W i : ℕ) : Option ℚ :=
  match rollMeanCell (trList bars) W i with
  | none => none
  | some a =>
    if a = 0 then none
    else
      let p := 100 * (ewm (alphaOfSpan W) (plusDmList bars)).getD i 0 / a
      let m := 100 * (ewm (alphaOfSpan W) (minusDmList bars)).getD i 0 / a
      if p + m = 0 then none else some (100 * |p - m| / (p + m))

/-- `np.sign`. -/
def sgn (q : ℚ) : ℚ := if 0 < q then 1 else if q < 0 then -1 else 0

/-- Recursion for `cumsum`. -/
def cumsumGo (a : ℚ) : List ℚ → List ℚ
  | [] => [a]
  | y :: ys => a :: cumsumGo (a + y) ys

/-- `Series.cumsum()`. -/
def cumsum : List ℚ → List ℚ
  | [] => []
  | x :: xs => cumsumGo x xs

/-- The OBV column: cumulative sum of `sign(diff Close) * Volume` with the
first delta taken as `0`. -/
def obvList (closes vols : List ℚ) : List ℚ :=
  cumsum (List.zipWith (fun d v => sgn d * v) (diffs0 closes) vols)

/-- The square of pandas `rolling(W).std()`: the sample variance with
divisor `W - 1` (`ddof = 1`), NaN for `W = 1` (zero degrees of freedom)
and while the window is not full. -/
def sampleVarCell (xs : List ℚ) (W i : ℕ) : Option ℚ :=
  if 2 ≤ W ∧ W ≤ i + 1 then
    some (((windowSlice xs W i).map fun x => (x - listMean (windowSlice xs W i)) ^ 2).sum
      / ((W : ℚ) - 1))
  else none

/-- The upper Bollinger band `m + 2 * s` with `s` the rolling sample
standard deviation; a square root, hence real-valued. -/
noncomputable def bbUpperCell (xs : List ℚ) (W i : ℕ) : Option ℝ :=
  match rollMeanCell xs W i, sampleVarCell xs W i with
  | some m, some v => some ((m : ℝ) + 2 * Real.sqrt (v : ℝ))
  | _, _ => none

/-- The lower Bollinger band `m - 2 * s`. -/
noncomputable def bbLowerCell (xs : List ℚ) (W i : ℕ) : Option ℝ :=
  match rollMeanCell xs W i, sampleVarCell xs W i with
  | some m, some v => some ((m : ℝ) - 2 * Real.sqrt (v : ℝ))
  | _, _ => none

/-- Modelled from the spec (for comparison with the code): the rolling
population variance, divisor `W` — defined as soon as the window is
full, for any `W ≥ 1`. -/
def popVarCell (xs : List ℚ) (W i : ℕ) : Option ℚ :=
  if 1 ≤ W ∧ W ≤ i + 1 then
    some (((windowSlice xs W i).map fun x => (x - listMean (windowSlice xs W i)) ^ 2).sum
      / (W : ℚ))
  else none

/-- Modelled from the spec: the upper Bollinger band with `s` the rolling
population standard deviation, as the specification words it. -/
noncomputable def bbUpperCellSpec (xs : List ℚ) (W i : ℕ) : Option ℝ :=
  match rollMeanCell xs W i, popVarCell xs W i with
  | some m, some v => some ((m : ℝ) + 2 * Real.sqrt (v : ℝ))
  | _, _ => none

/-- A column of `n` cells. -/
def colMap {α : Type*} (n : ℕ) (f : ℕ → α) : List α := (List.range n).map f

/-- The MACD column: fast exponential mean minus slow exponential mean of
the closes. -/
def macdCol (closes : List ℚ) (fastSpan slowSpan : ℕ) : List ℚ :=
  colMap closes.length fun i =>
    (ewm (alphaOfSpan fastSpan) closes).getD i 0
      - (ewm (alphaOfSpan slowSpan) closes).getD i 0

/-- The indicator frame returned by `calculate_indicators`: the five
original columns plus the derived ones. -/
structure IndFrame where
  opens : List ℚ
  highs : List ℚ
  lows : List ℚ
  closes : List ℚ
  volumes : List ℚ
  smaShort : List (Option ℚ)
  smaLong : List (Option ℚ)
  bbUpper : List (Option ℝ)
  bbLower : List (Option ℝ)
  atr : List (Option ℚ)
  adx : List (Option ℚ)
  rsi : List (Option ℚ)
  macd : List ℚ
  macdSignal : List ℚ
  obv : List ℚ

/-- `calculate_indicators(df, …)`: the code first takes `df.copy()` and
assigns every derived column to the copy, so the caller's frame keeps
exactly its original columns and values; the returned frame carries them
unchanged alongside the derived columns. -/
noncomputable def calculate_indicators (bars : List Bar) (p : Params) : IndFrame :=
  let n := bars.length
  let closes := bars.map Bar.close
  { opens := bars.map Bar.open_
    highs := bars.map Bar.high
    lows := bars.map Bar.low
    closes := closes
    volumes := bars.map Bar.volume
    smaShort := colMap n fun i => rollMeanCell closes p.sma_short i
    smaLong := colMap n fun i => rollMeanCell closes p.sma_long i
    bbUpper := colMap n fun i => bbUpperCell closes p.bb_window i
    bbLower := colMap n fun i => bbLowerCell closes p.bb_window i
    atr := colMap n fun i => rollMeanCell (trList bars) p.bb_window i
    adx := ewmNa (alphaOfSpan p.bb_window) (colMap n fun i => dxCell bars p.bb_window i)
    rsi := colMap n fun i => rsiCellAt closes p.rsi_window i
    macd := macdCol closes p.macd_fast p.macd_slow
    macdSignal := ewm (alphaOfSpan p.macd_signal) (macdCol closes p.macd_fast p.macd_slow)
    obv := obvList closes (bars.map Bar.volume) }

/-- A raw value in the fundamentals mapping: either a number (on which
Python `float` succeeds) or a non-numeric value such as the string `N/A`
(on which `float` raises `ValueError`; the non-numeric values modelled
here are truthy ones). -/
inductive RawVal where
  | rnum (q : ℚ)
  | rbad
  deriving DecidableEq

/-- Python truthiness of a raw value: a number is truthy iff nonzero. -/
def truthy : RawVal → Bool
  | .rnum q => q != 0
  | .rbad => true

/-- Python `a or b` on optional raw values (`dict.get` returns `None` for
an absent key, and `None` is falsy). -/
def pyOr (a b : Option RawVal) : Option RawVal :=
  match a with
  | some v => if truthy v then some v else b
  | none => b

/-- Failures of `fetch_fundamentals`: the `t.info` query raising, or
`float(value)` raising `ValueError` on a non-numeric value. -/
inductive FundError where
  | sourceFailure
  | valueError
  deriving DecidableEq

/-- One `if (v := info.get(key)) is not None: out[key] = float(v)` block:
an absent (or `None`) value is skipped, a numeric value is appended, a
non-numeric value raises. -/
def addIf (key : String) (v? : Option RawVal) (out : List (String × ℚ)) :
    Except FundError (List (String × ℚ)) :=
  match v? with
  | none => .ok out
  | some (.rnum q) => .ok (out ++ [(key, q)])
  | some .rbad => .error .valueError

/-- `fetch_fundamentals`: the argument is the outcome of the `t.info`
query (whose failure propagates uncaught); the four canonical ratios are
then collected in order, with `revenueQuarterlyGrowth` falling back to the
raw key `quarterlyRevenueGrowth` through Python `or`. -/
def fetch_fundamentals (info? : Except Unit (List (String × RawVal))) :
    Except FundError (List (String × ℚ)) :=
  match info? with
  | .error _ => .error .sourceFailure
  | .ok info =>
    (addIf "trailingPE" (info.lookup "trailingPE") []).bind fun out1 =>
    (addIf "earningsQuarterlyGrowth" (info.lookup "earningsQuarterlyGrowth") out1).bind
      fun out2 =>
    (addIf "revenueQuarterlyGrowth"
        (pyOr (info.lookup "revenueQuarterlyGrowth") (info.lookup "quarterlyRevenueGrowth"))
        out2).bind fun out3 =>
    addIf "debtToEquity" (info.lookup "debtToEquity") out3

/-- One row of the batch report. -/
structure BatchRow where
  ticker : String
  score5 : ℚ
  score20 : ℚ
  deriving DecidableEq

/-- The scoring loop of `batch_score.main`: for each ticker in order the
5-day analysis runs first, then the 20-day one; any failure skips the
ticker (logged, not appended), and a fully successful ticker appends one
row.  `analyze` stands for `analyze_and_score(ticker, …, lookback_days)`,
whose network-facing outcome is a parameter of the model. -/
def batchResults (analyze : String → ℕ → Except Unit ℚ) (tickers : List String) :
    List BatchRow :=
  tickers.foldl (fun acc t =>
    match analyze t 5 with
    | .error _ => acc
    | .ok s5 =>
      match analyze t 20 with
      | .error _ => acc
      | .ok s20 => acc ++ [⟨t, s5, s20⟩]) []

/-- The (zero- or one-entry) slice of the snapshot contributed by one
canonical field. -/
def optPart (k : String) : Option ℚ → List (String × ℚ)
  | none => []
  | some q => [(k, q)]

/-! ### Helper lemmas about the scorer -/

theorem xclip_bounds (x : XQ) (hx : x ≠ XQ.nan) :
    ∃ q, xclip x = XQ.fin q ∧ 0 ≤ q ∧ q ≤ 100 := by
  cases x with
  | fin q =>
    refine ⟨min (max q 0) 100, rfl, ?_, min_le_right _ _⟩
    exact le_min (le_max_right _ _) (by norm_num)
  | pinf => exact ⟨100, rfl, by norm_num, le_refl _⟩
  | ninf => exact ⟨0, rfl, le_refl _, by norm_num⟩
  | nan => exact absurd rfl hx

theorem xadd_eq_nan (x y : XQ) :
    xadd x y = XQ.nan ↔
      x = XQ.nan ∨ y = XQ.nan ∨ (x = XQ.pinf ∧ y = XQ.ninf)
        ∨ (x = XQ.ninf ∧ y = XQ.pinf) := by
  cases x <;> cases y <;> simp [xadd]

theorem smaTerm_pinf (c : ℚ) (s? : Option ℚ) (h : smaTerm c s? = XQ.pinf) : 0 < c := by
  cases s? with
  | none => simp [smaTerm] at h
  | some s =>
    by_cases hs : s = 0
    · by_cases hc : 0 < c
      · exact hc
      · by_cases hc2 : c < 0 <;> simp [smaTerm, hs, hc, hc2] at h
    · simp [smaTerm, hs] at h

theorem smaTerm_ninf (c : ℚ) (s? : Option ℚ) (h : smaTerm c s? = XQ.ninf) : c < 0 := by
  cases s? with
  | none => simp [smaTerm] at h
  | some s =>
    by_cases hs : s = 0
    · by_cases hc : 0 < c
      · simp [smaTerm, hs, hc] at h
      · by_cases hc2 : c < 0
        · exact hc2
        · simp [smaTerm, hs, hc, hc2] at h
    · simp [smaTerm, hs] at h

theorem smaTerm_nan (c : ℚ) (s? : Option ℚ) (h : smaTerm c s? = XQ.nan) :
    s? = some 0 ∧ c = 0 := by
  cases s? with
  | none => simp [smaTerm] at h
  | some s =>
    by_cases hs : s = 0
    · by_cases hc : 0 < c
      · simp [smaTerm, hs, hc] at h
      · by_cases hc2 : c < 0
        · simp [smaTerm, hs, hc, hc2] at h
        · exact ⟨by rw [hs], by linarith [lt_or_ge c 0, hc, hc2]⟩
    · simp [smaTerm, hs] at h

theorem xadd_fin_right (x : XQ) (b : ℚ) : xadd x (XQ.fin b) = XQ.nan ↔ x = XQ.nan := by
  cases x <;> simp [xadd]

theorem smaContribX_nan (s? l? : Option ℚ) (c : ℚ)
    (h : smaContribX s? l? c = XQ.nan) :
    c = 0 ∧ (s? = some 0 ∨ l? = some 0) := by
  have inner : xadd (smaTerm c s?) (smaTerm c l?) = XQ.nan := by
    unfold smaContribX at h
    cases s? <;> cases l? <;> exact (xadd_fin_right _ _).mp h
  rw [xadd_eq_nan] at inner
  rcases inner with h1 | h1 | ⟨h1, h2⟩ | ⟨h1, h2⟩
  · obtain ⟨hs, hc⟩ := smaTerm_nan c s? h1
    exact ⟨hc, Or.inl hs⟩
  · obtain ⟨hl, hc⟩ := smaTerm_nan c l? h1
    exact ⟨hc, Or.inr hl⟩
  · exact absurd (smaTerm_pinf c s? h1) (not_lt.mpr (le_of_lt (smaTerm_ninf c l? h2)))
  · exact absurd (smaTerm_pinf c l? h2) (not_lt.mpr (le_of_lt (smaTerm_ninf c s? h1)))

theorem getLast?_cons_exists {α : Type*} (a : α) (as : List α) :
    ∃ r, (a :: as).getLast? = some r := by
  induction as generalizing a with
  | nil => exact ⟨a, rfl⟩
  | cons b bs ih =>
    obtain ⟨r, hr⟩ := ih b
    exact ⟨r, by rw [List.getLast?_cons_cons]; exact hr⟩

theorem compute_score_of_getLast (df : List IndRow) (fund : List (String × ℚ))
    (lb : ℕ) (r : IndRow) (hr : df.getLast? = some r) :
    compute_score df fund lb = .ok (scoreVal df fund lb r) := by
  unfold compute_score
  rw [hr]

/-! ### Claims about the scorer -/

/-- Claim C1 (counterexample).  With a single row whose latest close is
`0` and whose `SMA_short` is the defined value `0`, the float SMA position
term is `5 * (0/0 - 1)`, a NaN, and `np.clip` passes NaN through: the
returned value is NaN, not a number in `[0, 100]`. -/
theorem score_range_cex :
    compute_score
        [⟨0, some 0, none, none, none, none, none, none, none, none, none⟩] [] 5
      = .ok XQ.nan
    ∧ ∀ q : ℚ, XQ.nan ≠ XQ.fin q :=
  ⟨rfl, fun _ h => XQ.noConfusion h⟩

/-- Claim C1 (amended).  For every indicator series, fundamentals mapping
and lookback ≥ 1, a returned score is a number in `[0, 100]` provided the
latest row does not pair a zero close with a defined zero moving average
(the float `0/0`); a zero moving average with a nonzero close only
produces `±inf`, which the final clip sends to `100` or `0`. -/
theorem score_range_amended (df : List IndRow) (fund : List (String × ℚ))
    (lb : ℕ) (v : XQ) (r : IndRow)
    (hlb : 1 ≤ lb)
    (hok : compute_score df fund lb = .ok v)
    (hlast : df.getLast? = some r)
    (hdeg : ¬(r.close = 0 ∧ (r.smaShort = some 0 ∨ r.smaLong = some 0))) :
    ∃ q, v = XQ.fin q ∧ 0 ≤ q ∧ q ≤ 100 := by
  rw [compute_score_of_getLast df fund lb r hlast] at hok
  have hv : v = scoreVal df fund lb r := by
    cases hok
    rfl
  subst hv
  unfold scoreVal
  refine xclip_bounds _ fun hnan => ?_
  rw [xadd_eq_nan] at hnan
  rcases hnan with h | h | ⟨h1, h2⟩ | ⟨h1, h2⟩
  · exact XQ.noConfusion h
  · exact hdeg (smaContribX_nan _ _ _ h)
  · exact XQ.noConfusion h1
  · exact XQ.noConfusion h1

/-- Witness for C1 (amended) at a concrete one-row series. -/
theorem score_range_amended_witness :
    ∃ q, XQ.fin 0 = XQ.fin q ∧ 0 ≤ q ∧ q ≤ 100 :=
  score_range_amended
    [⟨100, some 100, some 100, none, none, none, none, none, none, none, none⟩] [] 5
    (XQ.fin 0) ⟨100, some 100, some 100, none, none, none, none, none, none, none, none⟩
    (by decide)
    (by
      simp only [compute_score, scoreVal, rsiContrib, macdContrib, histList, bbContrib,
        smaContribX, smaTerm, atrContrib, adxContrib, obvContrib, fundContrib, interp,
        xadd, xclip, tailN, listMean, rollMeanCol, rollMeanCell, windowSlice,
        List.getLast?, List.map, List.filterMap, List.reverse, List.lookup, List.drop,
        List.take, List.length, List.range, List.isEmpty, List.sum]
      norm_num)
    rfl (by decide)

/-- Claim C2 (confirmed).  For any lookback ≥ 1, `compute_score` fails
with `InsufficientDataError` exactly when the indicator series has zero
rows (in the code, the `IndexError` of `iat[-1]` on an empty frame), and
on any nonempty series it returns a value without failing. -/
theorem score_empty_error (df : List IndRow) (fund : List (String × ℚ)) (lb : ℕ)
    (hlb : 1 ≤ lb) :
    (compute_score df fund lb = .error .insufficientData ↔ df = [])
    ∧ (df ≠ [] → ∃ v, compute_score df fund lb = .ok v) := by
  constructor
  · constructor
    · intro h
      cases df with
      | nil => rfl
      | cons a as =>
        obtain ⟨r, hr⟩ := getLast?_cons_exists a as
        rw [compute_score_of_getLast _ fund lb r hr] at h
        exact Except.noConfusion h
    · rintro rfl
      rfl
  · intro hne
    cases df with
    | nil => exact absurd rfl hne
    | cons a as =>
      obtain ⟨r, hr⟩ := getLast?_cons_exists a as
      exact ⟨_, compute_score_of_getLast _ fund lb r hr⟩

/-- Witness for C2 at an empty and at a one-row series. -/
theorem score_empty_error_witness :
    compute_score [] [] 5 = .error .insufficientData
    ∧ ∃ v, compute_score
        [⟨1, none, none, none, none, none, none, none, none, none, none⟩] [] 5 = .ok v :=
  ⟨(score_empty_error [] [] 5 (by decide)).1.mpr rfl,
   (score_empty_error
      [⟨1, none, none, none, none, none, none, none, none, none, none⟩] [] 5
      (by decide)).2 (by simp)⟩

/-- Claim C6 (confirmed).  Whenever the latest ATR is defined and
positive, and the latest close is nonzero, the ATR contribution is
`5 * clamp((0.04 - ATR/close) / 0.02, 0, 1)`; it is `0` when the
volatility exceeds 6% and the full `5` when it is at most 2%.  (With a
zero close the float quotient is `+inf` and the clamp sends the
contribution to `0`, consistent with the same formula under IEEE
arithmetic.) -/
theorem atr_contribution_formula (a c : ℚ) (ha : 0 < a) :
    (c = 0 → atrContrib (some a) c = 0)
    ∧ (c ≠ 0 →
        atrContrib (some a) c = 5 * max 0 (min 1 ((4 / 100 - a / c) / (2 / 100)))
        ∧ (6 / 100 < a / c → atrContrib (some a) c = 0)
        ∧ (a / c ≤ 2 / 100 → atrContrib (some a) c = 5)) := by
  refine ⟨fun hc => by simp [atrContrib, ha, hc], fun hc => ?_⟩
  have hbase : atrContrib (some a) c
      = 5 * max 0 (min 1 ((4 / 100 - a / c) / (2 / 100))) := by
    simp [atrContrib, ha, hc]
  refine ⟨hbase, fun h6 => ?_, fun h2 => ?_⟩
  · have hraw : (4 / 100 - a / c) / (2 / 100) < (-1 : ℚ) := by
      rw [div_lt_iff₀ (by norm_num : (0:ℚ) < 2 / 100)]
      linarith
    have h1 : min 1 ((4 / 100 - a / c) / (2 / 100)) ≤ 0 :=
      le_trans (min_le_right _ _) (by linarith)
    rw [hbase, max_eq_left h1, mul_zero]
  · have hraw : (1:ℚ) ≤ (4 / 100 - a / c) / (2 / 100) := by
      rw [le_div_iff₀ (by norm_num : (0:ℚ) < 2 / 100)]
      linarith
    rw [hbase, min_eq_left hraw, max_eq_right (by norm_num : (0:ℚ) ≤ 1), mul_one]

/-- Witness for C6 at `ATR = 1/100`, `close = 1` (volatility 1% ≤ 2%). -/
theorem atr_contribution_formula_witness :
    atrContrib (some (1 / 100)) 1 = 5 :=
  ((atr_contribution_formula (1 / 100) 1 (by norm_num)).2 (by norm_num)).2.2 (by norm_num)

/-- Claim C7 (counterexample).  With `SMA_short = SMA_long = close = 100`
at the latest row, the SMA contribution is `-5`, not `0`: equality falls
into the `else -5` branch of `5 if sma_s > sma_l else -5`, so the `-5`
tie-break term IS triggered. -/
theorem sma_tiebreak_cex :
    smaContribX (some 100) (some 100) 100 = XQ.fin (-5)
    ∧ XQ.fin (-5) ≠ XQ.fin 0 := by
  constructor
  · simp only [smaContribX, smaTerm, xadd]
    norm_num
  · simp only [ne_eq, XQ.fin.injEq]
    norm_num

/-- Claim C7 (amended).  When both moving averages are defined and equal
(to a nonzero value), the strict comparison `sma_s > sma_l` is false and
the else-branch adds `-5`: the contribution is the two position terms
plus `-5`, not the two position terms alone. -/
theorem sma_tiebreak_amended (v c : ℚ) (hv : v ≠ 0) :
    smaContribX (some v) (some v) c
      = XQ.fin (5 * (c / v - 1) + 5 * (c / v - 1) + -5) := by
  simp [smaContribX, smaTerm, hv, xadd, lt_irrefl]

/-- Witness for C7 (amended) at `v = c = 1`. -/
theorem sma_tiebreak_amended_witness :
    smaContribX (some 1) (some 1) 1
      = XQ.fin (5 * (1 / 1 - 1) + 5 * (1 / 1 - 1) + -5) :=
  sma_tiebreak_amended 1 1 (by norm_num)

/-! ### The batch driver -/

theorem batchResults_go (analyze : String → ℕ → Except Unit ℚ) (ts : List String) :
    ∀ acc : List BatchRow,
      ts.foldl (fun acc t =>
        match analyze t 5 with
        | .error _ => acc
        | .ok s5 =>
          match analyze t 20 with
          | .error _ => acc
          | .ok s20 => acc ++ [⟨t, s5, s20⟩]) acc
      = acc ++ ts.filterMap (fun t =>
          match analyze t 5, analyze t 20 with
          | .ok s5, .ok s20 => some ⟨t, s5, s20⟩
          | _, _ => none) := by
  induction ts with
  | nil => intro acc; simp
  | cons t ts ih =>
    intro acc
    cases h5 : analyze t 5 with
    | error e =>
      cases h20 : analyze t 20 with
      | error f => simp [List.foldl_cons, h5, h20, ih, List.filterMap_cons]
      | ok s => simp [List.foldl_cons, h5, h20, ih, List.filterMap_cons]
    | ok s5 =>
      cases h20 : analyze t 20 with
      | error f => simp [List.foldl_cons, h5, h20, ih, List.filterMap_cons]
      | ok s20 => simp [List.foldl_cons, h5, h20, ih, List.filterMap_cons]

/-- Claim C8 (confirmed).  The batch report holds exactly one row
`(ticker, score_5, score_20)` per input-list entry whose 5-day and 20-day
analyses both succeed, in input order, with the scores the analyses
returned; an entry whose analysis fails contributes no row and does not
stop the loop. -/
theorem batch_rows_characterization (analyze : String → ℕ → Except Unit ℚ)
    (tickers : List String) :
    batchResults analyze tickers
      = tickers.filterMap (fun t =>
          match analyze t 5, analyze t 20 with
          | .ok s5, .ok s20 => some ⟨t, s5, s20⟩
          | _, _ => none) := by
  unfold batchResults
  simpa using batchResults_go analyze tickers []

/-! ### Helper lemmas about the fundamentals adapter -/

theorem lookup_of_forall_rnum (info : List (String × RawVal)) (k : String)
    (hnum : ∀ p ∈ info, ∃ q, p.2 = RawVal.rnum q) :
    info.lookup k = none ∨ ∃ q, info.lookup k = some (RawVal.rnum q) := by
  induction info with
  | nil => exact Or.inl rfl
  | cons p ps ih =>
    obtain ⟨a, b⟩ := p
    rw [List.lookup_cons]
    cases hab : k == a with
    | false =>
      simp only [hab]
      exact ih fun p hp => hnum p (List.mem_cons_of_mem _ hp)
    | true =>
      simp only [hab]
      obtain ⟨q, hq⟩ := hnum (a, b) (List.mem_cons_self _ _)
      exact Or.inr ⟨q, congrArg some hq⟩

theorem pyOr_shape (a b : Option RawVal)
    (ha : a = none ∨ ∃ q, a = some (RawVal.rnum q))
    (hb : b = none ∨ ∃ q, b = some (RawVal.rnum q)) :
    pyOr a b = none ∨ ∃ q, pyOr a b = some (RawVal.rnum q) := by
  rcases ha with rfl | ⟨q, rfl⟩
  · simpa [pyOr] using hb
  · by_cases hq : q = 0
    · simpa [pyOr, truthy, hq] using hb
    · exact Or.inr ⟨q, by simp [pyOr, truthy, hq]⟩

theorem fetch_eq_parts (info : List (String × RawVal)) (p e r d : Option ℚ)
    (hPE : info.lookup "trailingPE" = p.map RawVal.rnum)
    (hEG : info.lookup "earningsQuarterlyGrowth" = e.map RawVal.rnum)
    (hRG : pyOr (info.lookup "revenueQuarterlyGrowth")
        (info.lookup "quarterlyRevenueGrowth") = r.map RawVal.rnum)
    (hDE : info.lookup "debtToEquity" = d.map RawVal.rnum) :
    fetch_fundamentals (.ok info)
      = .ok (((optPart "trailingPE" p ++ optPart "earningsQuarterlyGrowth" e)
          ++ optPart "revenueQuarterlyGrowth" r) ++ optPart "debtToEquity" d) := by
  cases p <;> cases e <;> cases r <;> cases d <;>
    simp [fetch_fundamentals, addIf, optPart, Except.bind, hPE, hEG, hRG, hDE]

theorem lookup_optPart_ne {k a : String} (h : ¬ k = a) (o : Option ℚ) :
    (optPart a o).lookup k = none := by
  have hb : (k == a) = false := beq_eq_false_iff_ne.mpr h
  cases o <;> simp [optPart, List.lookup_cons, hb]

theorem lookup_append_assoc (k : String) (l1 l2 : List (String × ℚ)) :
    (l1 ++ l2).lookup k
      = match l1.lookup k with
        | some b => some b
        | none => l2.lookup k := by
  induction l1 with
  | nil => simp
  | cons pr ps ih =>
    obtain ⟨a, b⟩ := pr
    cases hab : k == a <;> simp [List.lookup_cons, hab, ih]

/-! ### Claims about the fundamentals adapter -/

/-- Claim C5 (counterexample).  A present but non-numeric
`trailingPE` value makes `float(pe)` raise `ValueError`: the call fails
instead of omitting the field, so `fetch_fundamentals` can raise. -/
theorem fundamentals_never_raises_cex :
    fetch_fundamentals (.ok [("trailingPE", RawVal.rbad)]) = .error .valueError
    ∧ (fetch_fundamentals (.ok [("trailingPE", RawVal.rbad)])).isOk = false :=
  ⟨rfl, rfl⟩

/-- Claim C5 (amended).  When the raw query succeeds and every raw value
is numeric, `fetch_fundamentals` returns without raising, with each
missing canonical field simply omitted and each present one converted;
but a present non-numeric value raises `ValueError` and a failing raw
query propagates (it is not swallowed). -/
theorem fundamentals_amended (info : List (String × RawVal))
    (hnum : ∀ p ∈ info, ∃ q, p.2 = RawVal.rnum q) :
    ∃ out, fetch_fundamentals (.ok info) = .ok out
      ∧ (info.lookup "trailingPE" = none → out.lookup "trailingPE" = none)
      ∧ (∀ q, info.lookup "trailingPE" = some (RawVal.rnum q) →
          out.lookup "trailingPE" = some q)
      ∧ (info.lookup "debtToEquity" = none → out.lookup "debtToEquity" = none)
      ∧ (∀ q, info.lookup "debtToEquity" = some (RawVal.rnum q) →
          out.lookup "debtToEquity" = some q) := by
  have toOpt : ∀ k : String,
      info.lookup k = none ∨ (∃ q, info.lookup k = some (RawVal.rnum q)) →
      ∃ o : Option ℚ, info.lookup k = o.map RawVal.rnum := by
    rintro k (h | ⟨q, h⟩)
    exacts [⟨none, h⟩, ⟨some q, h⟩]
  obtain ⟨p, hPE⟩ := toOpt "trailingPE" (lookup_of_forall_rnum info _ hnum)
  obtain ⟨e, hEG⟩ := toOpt "earningsQuarterlyGrowth" (lookup_of_forall_rnum info _ hnum)
  obtain ⟨r, hRG⟩ : ∃ o : Option ℚ,
      pyOr (info.lookup "revenueQuarterlyGrowth") (info.lookup "quarterlyRevenueGrowth")
        = o.map RawVal.rnum := by
    rcases pyOr_shape _ _ (lookup_of_forall_rnum info "revenueQuarterlyGrowth" hnum)
        (lookup_of_forall_rnum info "quarterlyRevenueGrowth" hnum) with h | ⟨q, h⟩
    exacts [⟨none, h⟩, ⟨some q, h⟩]
  obtain ⟨d, hDE⟩ := toOpt "debtToEquity" (lookup_of_forall_rnum info _ hnum)
  refine ⟨_, fetch_eq_parts info p e r d hPE hEG hRG hDE, ?_, ?_, ?_, ?_⟩
  · intro h
    rw [h] at hPE
    have hp : p = none := by
      cases p with
      | none => rfl
      | some q2 => simp at hPE
    subst hp
    cases e <;> cases r <;> cases d <;>
      simp [lookup_append_assoc, optPart, List.lookup_cons]
  · intro q hq
    rw [hPE] at hq
    have hp : p = some q := by
      cases p with
      | none => simp at hq
      | some q2 =>
        simp at hq
        rw [hq]
    subst hp
    cases e <;> cases r <;> cases d <;>
      simp [lookup_append_assoc, optPart, List.lookup_cons]
  · intro h
    rw [h] at hDE
    have hd : d = none := by
      cases d with
      | none => rfl
      | some q2 => simp at hDE
    subst hd
    cases p <;> cases e <;> cases r <;>
      simp [lookup_append_assoc, optPart, List.lookup_cons]
  · intro q hq
    rw [hDE] at hq
    have hd : d = some q := by
      cases d with
      | none => simp at hq
      | some q2 =>
        simp at hq
        rw [hq]
    subst hd
    cases p <;> cases e <;> cases r <;>
      simp [lookup_append_assoc, optPart, List.lookup_cons]

/-- Witness for C5 (amended) at a one-field numeric mapping. -/
theorem fundamentals_amended_witness :
    ∃ out, fetch_fundamentals (.ok [("trailingPE", RawVal.rnum 7)]) = .ok out
      ∧ (List.lookup "trailingPE" [("trailingPE", RawVal.rnum 7)] = none →
          out.lookup "trailingPE" = none)
      ∧ (∀ q, List.lookup "trailingPE" [("trailingPE", RawVal.rnum 7)]
            = some (RawVal.rnum q) → out.lookup "trailingPE" = some q)
      ∧ (List.lookup "debtToEquity" [("trailingPE", RawVal.rnum 7)] = none →
          out.lookup "debtToEquity" = none)
      ∧ (∀ q, List.lookup "debtToEquity" [("trailingPE", RawVal.rnum 7)]
            = some (RawVal.rnum q) → out.lookup "debtToEquity" = some q) :=
  fundamentals_amended [("trailingPE", RawVal.rnum 7)]
    (by
      intro pr hpr
      simp only [List.mem_singleton] at hpr
      exact ⟨7, by rw [hpr]⟩)

/-- Claim C10 (confirmed).  The adapter reads the undocumented raw key
`quarterlyRevenueGrowth` as a fallback, and because Python `or` tests
truthiness, a raw `revenueQuarterlyGrowth` equal to `0` counts as absent:
the snapshot then carries the fallback value. -/
theorem revenue_growth_fallback (info : List (String × RawVal)) (q : ℚ)
    (out : List (String × ℚ))
    (hmain : info.lookup "revenueQuarterlyGrowth" = some (RawVal.rnum 0))
    (hfb : info.lookup "quarterlyRevenueGrowth" = some (RawVal.rnum q))
    (hok : fetch_fundamentals (.ok info) = .ok out) :
    out.lookup "revenueQuarterlyGrowth" = some q := by
  have hRG : pyOr (info.lookup "revenueQuarterlyGrowth")
      (info.lookup "quarterlyRevenueGrowth") = (some q).map RawVal.rnum := by
    rw [hmain, hfb]
    simp [pyOr, truthy]
  obtain ⟨p, hPE⟩ : ∃ p : Option ℚ, info.lookup "trailingPE" = p.map RawVal.rnum := by
    rcases hPE : info.lookup "trailingPE" with _ | v
    · exact ⟨none, rfl⟩
    · cases v with
      | rnum qv => exact ⟨some qv, rfl⟩
      | rbad => simp [fetch_fundamentals, addIf, Except.bind, hPE] at hok
  obtain ⟨e, hEG⟩ : ∃ e : Option ℚ,
      info.lookup "earningsQuarterlyGrowth" = e.map RawVal.rnum := by
    rcases hEG : info.lookup "earningsQuarterlyGrowth" with _ | w
    · exact ⟨none, rfl⟩
    · cases w with
      | rnum qw => exact ⟨some qw, rfl⟩
      | rbad => cases p <;> simp [fetch_fundamentals, addIf, Except.bind, hPE, hEG] at hok
  obtain ⟨d, hDE⟩ : ∃ d : Option ℚ, info.lookup "debtToEquity" = d.map RawVal.rnum := by
    rcases hDE : info.lookup "debtToEquity" with _ | u
    · exact ⟨none, rfl⟩
    · cases u with
      | rnum qu => exact ⟨some qu, rfl⟩
      | rbad =>
        cases p <;> cases e <;>
          simp [fetch_fundamentals, addIf, Except.bind, hPE, hEG, hRG, hDE] at hok
  have hfe := fetch_eq_parts info p e (some q) d hPE hEG hRG hDE
  rw [hok] at hfe
  have hout : out
      = ((optPart "trailingPE" p ++ optPart "earningsQuarterlyGrowth" e)
          ++ optPart "revenueQuarterlyGrowth" (some q)) ++ optPart "debtToEquity" d := by
    cases hfe
    rfl
  subst hout
  cases p <;> cases e <;> cases d <;>
    simp [lookup_append_assoc, optPart, List.lookup_cons]

/-- Witness for C10 at a concrete two-key mapping with a zero main value
and fallback value `3/10`. -/
theorem revenue_growth_fallback_witness :
    List.lookup "revenueQuarterlyGrowth" [("revenueQuarterlyGrowth", (3 : ℚ) / 10)]
      = some ((3 : ℚ) / 10) :=
  revenue_growth_fallback
    [("revenueQuarterlyGrowth", RawVal.rnum 0), ("quarterlyRevenueGrowth", RawVal.rnum (3 / 10))]
    (3 / 10) [("revenueQuarterlyGrowth", (3 : ℚ) / 10)]
    (by simp [List.lookup_cons])
    (by simp [List.lookup_cons])
    (by simp [fetch_fundamentals, addIf, Except.bind, pyOr, truthy, List.lookup_cons])

/-! ### Helper lemmas about the indicator engine -/

theorem length_colMap {α : Type*} (n : ℕ) (f : ℕ → α) : (colMap n f).length = n := by
  simp [colMap]

theorem length_ewmGo (alpha : ℚ) (xs : List ℚ) :
    ∀ a, (ewmGo alpha a xs).length = xs.length + 1 := by
  induction xs with
  | nil => intro a; rfl
  | cons y ys ih => intro a; simp [ewmGo, ih]

theorem length_ewm (alpha : ℚ) (xs : List ℚ) : (ewm alpha xs).length = xs.length := by
  cases xs with
  | nil => rfl
  | cons x xs => simp [ewm, length_ewmGo]

theorem length_ewmNaGo (alpha : ℚ) (xs : List (Option ℚ)) :
    ∀ a w, (ewmNaGo alpha a w xs).length = xs.length := by
  induction xs with
  | nil => intro a w; rfl
  | cons x xs ih =>
    intro a w
    cases x with
    | none => simp [ewmNaGo, ih]
    | some v => simp [ewmNaGo, ih]

theorem length_ewmNa (alpha : ℚ) (xs : List (Option ℚ)) :
    (ewmNa alpha xs).length = xs.length := by
  induction xs with
  | nil => rfl
  | cons x xs ih =>
    cases x with
    | none => simp [ewmNa, ih]
    | some v => simp [ewmNa, length_ewmNaGo]

theorem length_cumsumGo (ys : List ℚ) : ∀ a, (cumsumGo a ys).length = ys.length + 1 := by
  induction ys with
  | nil => intro a; rfl
  | cons y ys ih => intro a; simp [cumsumGo, ih]

theorem length_cumsum (xs : List ℚ) : (cumsum xs).length = xs.length := by
  cases xs with
  | nil => rfl
  | cons x xs => simp [cumsum, length_cumsumGo]

theorem length_diffs0 (xs : List ℚ) : (diffs0 xs).length = xs.length := by
  cases xs with
  | nil => rfl
  | cons x xs => simp [diffs0, List.length_zipWith]

theorem length_obvList (closes vols : List ℚ) :
    (obvList closes vols).length = min closes.length vols.length := by
  simp [obvList, length_cumsum, List.length_zipWith, length_diffs0]

theorem filterMap_id_replicate_none (m : ℕ) :
    (List.replicate m (none : Option ℚ)).filterMap id = [] := by
  induction m with
  | zero => rfl
  | succ k ih => simp [List.replicate_succ, ih]

/-! ### Claims about the indicator engine -/

/-- Claim C9 (confirmed).  `calculate_indicators` works on `df.copy()`, so
the caller's frame keeps exactly its original columns and values: in the
pure embedding the returned frame carries the five input columns unchanged,
and every derived column is a new column of the same length added beside
them. -/
theorem calculate_indicators_pure (bars : List Bar) (p : Params) :
    ((calculate_indicators bars p).opens = bars.map Bar.open_
      ∧ (calculate_indicators bars p).highs = bars.map Bar.high
      ∧ (calculate_indicators bars p).lows = bars.map Bar.low
      ∧ (calculate_indicators bars p).closes = bars.map Bar.close
      ∧ (calculate_indicators bars p).volumes = bars.map Bar.volume)
    ∧ ((calculate_indicators bars p).smaShort.length = bars.length
      ∧ (calculate_indicators bars p).smaLong.length = bars.length
      ∧ (calculate_indicators bars p).bbUpper.length = bars.length
      ∧ (calculate_indicators bars p).bbLower.length = bars.length
      ∧ (calculate_indicators bars p).atr.length = bars.length
      ∧ (calculate_indicators bars p).adx.length = bars.length
      ∧ (calculate_indicators bars p).rsi.length = bars.length
      ∧ (calculate_indicators bars p).macd.length = bars.length
      ∧ (calculate_indicators bars p).macdSignal.length = bars.length
      ∧ (calculate_indicators bars p).obv.length = bars.length) := by
  refine ⟨⟨rfl, rfl, rfl, rfl, rfl⟩,
    ?_, ?_, ?_, ?_, ?_, ?_, ?_, ?_, ?_, ?_⟩ <;>
    simp [calculate_indicators, macdCol, length_colMap, length_ewm, length_ewmNa,
      length_obvList, List.length_map]

/-- Claim C3 (counterexample).  On the strictly increasing closes
`[1, 2, 3]` with `rsi_window = 2`, the rolling loss mean at the last
position is `0`, yet the RSI there is the defined value `100`, not the
undefined marker: the float quotient `gain / 0` is `+inf`, and
`100 - 100 / (1 + inf) = 100`. -/
theorem rsi_zero_loss_cex :
    rollMeanCell (lossList [1, 2, 3]) 2 2 = some 0
    ∧ (calculate_indicators
        [⟨1, 1, 1, 1, 1⟩, ⟨2, 2, 2, 2, 2⟩, ⟨3, 3, 3, 3, 3⟩]
        ⟨3, 5, 5, 2, 3, 8, 3⟩).rsi.getD 2 none = some 100
    ∧ some (100 : ℚ) ≠ (none : Option ℚ) := by
  have hrange : List.range 3 = [0, 1, 2] := rfl
  have hloss : rollMeanCell (lossList [1, 2, 3]) 2 2 = some 0 := by
    norm_num [rollMeanCell, lossList, diffs0, windowSlice, listMean]
  have hgain : rollMeanCell (gainList [1, 2, 3]) 2 2 = some 1 := by
    norm_num [rollMeanCell, gainList, diffs0, windowSlice, listMean]
  refine ⟨hloss, ?_, by simp⟩
  show (colMap 3 fun i => rsiCellAt [1, 2, 3] 2 i).getD 2 none = some 100
  simp only [colMap, hrange, List.map_cons, List.map_nil, List.getD, List.getElem?_cons_succ,
    List.getElem?_cons_zero, Option.getD_some]
  unfold rsiCellAt
  rw [hgain, hloss]
  norm_num [rsiCell]

/-- Claim C3 (amended).  A zero rolling loss mean makes the RSI undefined
only when the rolling gain mean is also zero (the float `0/0`); with a
positive gain the float quotient is `+inf` and the RSI is the defined
value `100`.  Where the RSI is undefined, the marker propagates without
raising: the scorer's RSI branch drops undefined entries and contributes
nothing. -/
theorem rsi_zero_loss_amended (closes : List ℚ) (W i : ℕ)
    (hl : rollMeanCell (lossList closes) W i = some 0) :
    (rollMeanCell (gainList closes) W i = some 0 → rsiCellAt closes W i = none)
    ∧ (∀ g, rollMeanCell (gainList closes) W i = some g → g ≠ 0 →
        rsiCellAt closes W i = some 100)
    ∧ ∀ n lb : ℕ, rsiContrib (List.replicate n none) lb = 0 := by
  refine ⟨fun hg => ?_, fun g hg hg0 => ?_, fun n lb => ?_⟩
  · unfold rsiCellAt
    rw [hg, hl]
    simp [rsiCell]
  · unfold rsiCellAt
    rw [hg, hl]
    simp [rsiCell, hg0]
  · unfold rsiContrib tailN
    rw [List.drop_replicate, filterMap_id_replicate_none]
    rfl

/-- Witness for C3 (amended) at closes `[1, 2, 3]`, window 2, position 2. -/
theorem rsi_zero_loss_amended_witness :
    rsiCellAt [1, 2, 3] 2 2 = some 100 :=
  (rsi_zero_loss_amended [1, 2, 3] 2 2
      (by norm_num [rollMeanCell, lossList, diffs0, windowSlice, listMean])).2.1 1
    (by norm_num [rollMeanCell, gainList, diffs0, windowSlice, listMean])
    (by norm_num)

/-- Claim C4 (counterexample).  On closes `[0, 2]` with `bb_window = 2`
the code's upper band (pandas sample std, divisor `W - 1 = 1`) is
`1 + 2 * sqrt 2`, while the band built from the specification's rolling
population standard deviation (divisor `W = 2`) is `1 + 2 * sqrt 1 = 3`;
the two differ. -/
theorem bb_population_std_cex :
    bbUpperCell [0, 2] 2 1 = some (1 + 2 * Real.sqrt 2)
    ∧ bbUpperCellSpec [0, 2] 2 1 = some 3
    ∧ some ((1 : ℝ) + 2 * Real.sqrt 2) ≠ some (3 : ℝ) := by
  have hm : rollMeanCell [0, 2] 2 1 = some 1 := by
    norm_num [rollMeanCell, windowSlice, listMean]
  have hv : sampleVarCell [0, 2] 2 1 = some 2 := by
    norm_num [sampleVarCell, windowSlice, listMean]
  have hp : popVarCell [0, 2] 2 1 = some 1 := by
    norm_num [popVarCell, windowSlice, listMean]
  have hsqrt : Real.sqrt 2 ≠ 1 := by
    intro h
    have h2 := Real.sq_sqrt (by norm_num : (0:ℝ) ≤ 2)
    rw [h] at h2
    norm_num at h2
  refine ⟨?_, ?_, ?_⟩
  · unfold bbUpperCell
    rw [hm, hv]
    norm_num
  · unfold bbUpperCellSpec
    rw [hm, hp]
    norm_num [Real.sqrt_one]
  · intro h
    rw [Option.some.injEq] at h
    exact hsqrt (by linarith)

/-- Claim C4 (amended).  For `bb_window ≥ 2` and a full window, the bands
are `m ± 2s` where `m` is the rolling mean and `s` the rolling SAMPLE
standard deviation of the closes (`s ≥ 0` and `s²` is the sum of squared
deviations over `W - 1`, pandas `ddof = 1`) — not the population standard
deviation; and for `bb_window = 1` the sample deviation has zero degrees
of freedom, so both bands are undefined rather than collapsing onto the
mean. -/
theorem bb_sample_std_amended (xs : List ℚ) (W i : ℕ) :
    (2 ≤ W → W ≤ i + 1 →
      ∃ s : ℝ, 0 ≤ s
        ∧ s ^ 2 = ((((windowSlice xs W i).map
              fun x => (x - listMean (windowSlice xs W i)) ^ 2).sum : ℚ) : ℝ)
            / ((W : ℝ) - 1)
        ∧ bbUpperCell xs W i = some ((listMean (windowSlice xs W i) : ℝ) + 2 * s)
        ∧ bbLowerCell xs W i = some ((listMean (windowSlice xs W i) : ℝ) - 2 * s))
    ∧ (W = 1 → bbUpperCell xs W i = none ∧ bbLowerCell xs W i = none) := by
  constructor
  · intro h2 hi
    have hSSnn : (0:ℚ) ≤ ((windowSlice xs W i).map
        fun x => (x - listMean (windowSlice xs W i)) ^ 2).sum := by
      apply List.sum_nonneg
      intro y hy
      obtain ⟨x, hx, rfl⟩ := List.mem_map.mp hy
      positivity
    have hW1 : (0:ℚ) < (W:ℚ) - 1 := by
      have h2q : (2:ℚ) ≤ (W:ℚ) := by exact_mod_cast h2
      linarith
    have hvnn : (0:ℚ) ≤ (((windowSlice xs W i).map
        fun x => (x - listMean (windowSlice xs W i)) ^ 2).sum) / ((W:ℚ) - 1) :=
      div_nonneg hSSnn (le_of_lt hW1)
    have hm : rollMeanCell xs W i = some (listMean (windowSlice xs W i)) := by
      unfold rollMeanCell
      rw [if_pos ⟨le_trans (by norm_num) h2, hi⟩]
    have hv : sampleVarCell xs W i
        = some ((((windowSlice xs W i).map
            fun x => (x - listMean (windowSlice xs W i)) ^ 2).sum) / ((W:ℚ) - 1)) := by
      unfold sampleVarCell
      rw [if_pos ⟨h2, hi⟩]
    refine ⟨Real.sqrt (((((windowSlice xs W i).map
        fun x => (x - listMean (windowSlice xs W i)) ^ 2).sum) / ((W:ℚ) - 1) : ℚ) : ℝ),
      Real.sqrt_nonneg _, ?_, ?_, ?_⟩
    · rw [Real.sq_sqrt (by exact_mod_cast hvnn)]
      push_cast
      ring
    · unfold bbUpperCell
      rw [hm, hv]
    · unfold bbLowerCell
      rw [hm, hv]
  · intro h1
    subst h1
    have hv1 : sampleVarCell xs 1 i = none := by simp [sampleVarCell]
    cases hrm : rollMeanCell xs 1 i with
    | none => constructor <;> simp [bbUpperCell, bbLowerCell, hrm, hv1]
    | some m => constructor <;> simp [bbUpperCell, bbLowerCell, hrm, hv1]

/-- Witness for C4 (amended) at closes `[0, 2]`, window 2, position 1. -/
theorem bb_sample_std_amended_witness :
    ∃ s : ℝ, 0 ≤ s
      ∧ s ^ 2 = ((((windowSlice [0, 2] 2 1).map
            fun x => (x - listMean (windowSlice [0, 2] 2 1)) ^ 2).sum : ℚ) : ℝ)
          / (((2 : ℕ) : ℝ) - 1)
      ∧ bbUpperCell [0, 2] 2 1
          = some ((listMean (windowSlice [0, 2] 2 1) : ℝ) + 2 * s)
      ∧ bbLowerCell [0, 2] 2 1
          = some ((listMean (windowSlice [0, 2] 2 1) : ℝ) - 2 * s) :=
  (bb_sample_std_amended [0, 2] 2 1).1 (by norm_num) (by norm_num)
